import Mathlib

/-!
Verification of the `env` package (typed environment-variable accessors).

The repository has two historical versions of the same file:
  * `src/env.go` (namespace `EnvGo` below), whose `Bool` delegates to
    `strconv.ParseBool`;
  * `src/unnamed/part_000` (namespace `Part000` below), whose `Bool`
    lowercases the value and matches the six tokens
    `true, t, 1, false, f, 0`.
All other accessors (`String`, `Int`, `Float64`, `Duration`) are textually
identical in the two files; they are embedded separately under each
namespace to mirror the sources.

Side effects are made explicit: the process environment is a parameter
`Env := String → Option String` (`none` = variable unset), and every
accessor returns its result together with the list of invocations of the
error hook `Log` performed during the call, each invocation being the
pair `(key, error)` that the Go code passes to `Log`.
-/

/-- The process environment: `none` means the variable is unset. -/
def Env : Type := String → Option String

/-- Model of Go `os.Getenv`: returns the bound string, or `""` when the
variable is unset (Go's `os.Getenv` cannot distinguish the two). -/
def getenv (env : Env) (key : String) : String :=
  (env key).getD ""

/-- The kind carried by a Go `strconv.NumError`: `ErrSyntax` or `ErrRange`. -/
inductive NumErrKind : Type where
  | syn : NumErrKind
  | range : NumErrKind
deriving DecidableEq, Repr

/-- A Go `error` value as produced by the code under verification: either a
`strconv.NumError` (function name, offending numeral, kind) or a plain
message built by `errors.New` / `fmt.Errorf`. -/
inductive GoErr : Type where
  | numError (fn num : String) (kind : NumErrKind) : GoErr
  | errorString (msg : String) : GoErr
deriving DecidableEq, Repr

deriving instance DecidableEq for Except

/-- One invocation of the error hook `Log`: the `(key, err)` pair passed. -/
abbrev HookCall : Type := String × GoErr

/- Root-level aliases for the builtin types, usable inside the `EnvGo` and
`Part000` namespaces where `String`, `Bool`, `Int` name the accessors. -/
abbrev GoStr := String
abbrev GoBool := Bool
abbrev GoInt := Int
/-- Go `time.Duration` is an `int64` count of nanoseconds. -/
abbrev GoDuration := Int

/-- Model of Go `strconv.ParseBool`: accepts exactly the twelve literal
spellings from the strconv source and is otherwise a syntax `NumError`. -/
def ParseBool (str : String) : Except GoErr Bool :=
  if str = "1" ∨ str = "t" ∨ str = "T" ∨ str = "true" ∨ str = "TRUE" ∨ str = "True" then
    .ok true
  else if str = "0" ∨ str = "f" ∨ str = "F" ∨ str = "false" ∨ str = "FALSE" ∨ str = "False" then
    .ok false
  else
    .error (.numError "ParseBool" str .syn)

/-- Model of Go `strings.ToLower` restricted to ASCII case mapping
(`Char.toLower` lowercases exactly `A`–`Z`).  Go's `ToLower` applies the
Unicode simple case mapping per rune; the two agree on all ASCII strings.
Token acceptance in `Part000.Bool` is unaffected by the restriction: no
non-ASCII rune has an ASCII simple lowercase among the characters of the
six tokens (the only non-ASCII-to-ASCII simple lowercasings are
U+0130 → `i` and U+212A → `k`, and neither `i` nor `k` occurs in
`true, t, 1, false, f, 0`).  The logged message, however, does diverge on
non-ASCII values (for the raw value `"Ä"` Go logs `'ä'`, this model `'Ä'`),
so statements about the message's exact text carry an `asciiOnly`
hypothesis confining them to the strings where the model is exact. -/
def toLowerAscii (s : String) : String :=
  { data := s.data.map Char.toLower }

/-- `2^63`, the bound used by Go's 64-bit signed-overflow checks. -/
def twoPow63 : Nat := 9223372036854775808

/-- Model of Go `strconv.Atoi` on a 64-bit platform: optional sign, then one
or more ASCII digits, base 10; value must fit in `int64`.  Syntax failures
give `NumError{"Atoi", s, ErrSyntax}`, out-of-range values give
`NumError{"Atoi", s, ErrRange}` (the slow path routes through
`ParseInt(s, 10, 0)` and rewrites the function name to `"Atoi"`). -/
def Atoi (s : String) : Except GoErr Int :=
  let cs := s.data
  match cs with
  | [] => .error (.numError "Atoi" s .syn)
  | c :: rest =>
    let (neg, digits) :=
      if c = '-' then (true, rest)
      else if c = '+' then (false, rest)
      else (false, cs)
    if digits.isEmpty ∨ ¬ digits.all Char.isDigit then
      .error (.numError "Atoi" s .syn)
    else
      let n : Nat := digits.foldl (fun a d => a * 10 + (d.toNat - 48)) 0
      let v : Int := if neg then -(n : Int) else (n : Int)
      if v < -(twoPow63 : Int) ∨ (twoPow63 : Int) - 1 < v then
        .error (.numError "Atoi" s .range)
      else
        .ok v

/-- The value domain of Go `strconv.ParseFloat`: a finite value (kept as an
exact rational; binary64 rounding and the `ErrRange` overflow path are not
modelled — no claim depends on them), an infinity, or NaN. -/
inductive GoFloat : Type where
  | finite (q : Rat) : GoFloat
  | infinite (neg : GoBool) : GoFloat
  | nan : GoFloat
deriving DecidableEq

/-- Splits a character list into its longest prefix of ASCII digits and the
remainder. -/
def spanDigits : List Char → List Char × List Char
  | [] => ([], [])
  | c :: rest =>
    if c.isDigit then
      let (ds, r) := spanDigits rest
      (c :: ds, r)
    else ([], c :: rest)

/-- Base-10 value of a list of ASCII digits. -/
def digitsVal (ds : List Char) : Nat :=
  ds.foldl (fun a d => a * 10 + (d.toNat - 48)) 0

/-- Case-insensitive match of a whole character list against `"inf"` or
`"infinity"` (the two spellings `strconv.ParseFloat` accepts). -/
def isInfWord (cs : List Char) : Bool :=
  cs.map Char.toLower == "inf".data || cs.map Char.toLower == "infinity".data

/-- The special values of `strconv.ParseFloat`: `[+-]?inf`, `[+-]?infinity`
and (unsigned) `nan`, case-insensitively, consuming the whole string. -/
def specialFloat (cs : List Char) : Option GoFloat :=
  match cs with
  | '+' :: rest => if isInfWord rest then some (.infinite false) else none
  | '-' :: rest => if isInfWord rest then some (.infinite true) else none
  | _ =>
    if isInfWord cs then some (.infinite false)
    else if cs.map Char.toLower == "nan".data then some .nan
    else none

/-- Decimal floating-point literal grammar of `strconv.ParseFloat`:
`[+-]? digits [. digits]? ([eE] [+-]? digits)?` with at least one mantissa
digit, consuming the whole string; value kept as an exact rational.
Hexadecimal literals and underscore digit separators, which Go also accepts,
are not modelled — no claim depends on the accept set of `ParseFloat`. -/
def floatLit (cs : List Char) : Option Rat :=
  let (neg, cs1) :=
    match cs with
    | '+' :: r => (false, r)
    | '-' :: r => (true, r)
    | _ => (false, cs)
  let (ip, cs2) := spanDigits cs1
  let (fp, cs3) :=
    match cs2 with
    | '.' :: r => spanDigits r
    | _ => ([], cs2)
  if ip = [] ∧ fp = [] then none
  else
    let mant : Rat := (digitsVal (ip ++ fp) : Rat) / ((10 : Rat) ^ fp.length)
    let signed : Rat := if neg then -mant else mant
    match cs3 with
    | [] => some signed
    | e :: r =>
      if e = 'e' ∨ e = 'E' then
        let (eneg, r1) :=
          match r with
          | '+' :: r2 => (false, r2)
          | '-' :: r2 => (true, r2)
          | _ => (false, r)
        let (ed, r2) := spanDigits r1
        if ed = [] ∨ r2 ≠ [] then none
        else if eneg then some (signed / ((10 : Rat) ^ digitsVal ed))
        else some (signed * ((10 : Rat) ^ digitsVal ed))
      else none

/-- Model of Go `strconv.ParseFloat(s, 64)` at the level of its accept
grammar, with exact values (see `floatLit` and `GoFloat` for the deliberate
abstractions). -/
def ParseFloat (s : String) : Except GoErr GoFloat :=
  match specialFloat s.data with
  | some v => .ok v
  | none =>
    match floatLit s.data with
    | some q => .ok (.finite q)
    | none => .error (.numError "ParseFloat" s .syn)

/-- Go's `quote` applied to duration error operands, modelled without the
escaping of non-printable characters. -/
def quoteGo (s : String) : String :=
  "\"" ++ s ++ "\""

/-- The `time: invalid duration` error of `time.ParseDuration`. -/
def invalidDuration (orig : String) : GoErr :=
  .errorString ("time: invalid duration " ++ quoteGo orig)

/-- Model of Go's `leadingInt`: consumes leading ASCII digits accumulating a
value, failing on overflow past `1<<63` (cutoff `1<<63/10` before the
multiply, as in the Go source). -/
def leadingIntGo : Nat → List Char → Except Unit (Nat × List Char)
  | x, [] => .ok (x, [])
  | x, c :: rest =>
    if c.isDigit then
      if 922337203685477580 < x then .error ()
      else
        let x' := x * 10 + (c.toNat - 48)
        if twoPow63 < x' then .error ()
        else leadingIntGo x' rest
    else .ok (x, c :: rest)

/-- Model of Go's `leadingFraction`: consumes leading digits after the
decimal point, returning `(x, scale, rem)`; once the accumulator would
overflow it keeps consuming digits without updating `x` or `scale`.
Go keeps `scale` as a `float64`; it is a `Nat` power of ten here. -/
def leadingFractionGo : Nat → Nat → GoBool → List Char → Nat × Nat × List Char
  | x, scale, _, [] => (x, scale, [])
  | x, scale, overflow, c :: rest =>
    if c.isDigit then
      if overflow then leadingFractionGo x scale true rest
      else if 922337203685477580 < x then leadingFractionGo x scale true rest
      else
        let y := x * 10 + (c.toNat - 48)
        if twoPow63 < y then leadingFractionGo x scale true rest
        else leadingFractionGo y (scale * 10) false rest
    else (x, scale, c :: rest)

/-- Length of the unit token at the head of the list: the characters up to
the next `.` or digit (the scan loop of `time.ParseDuration`). -/
def unitLen : List Char → Nat
  | [] => 0
  | c :: rest => if c = '.' ∨ c.isDigit then 0 else unitLen rest + 1

/-- The unit table of `time.ParseDuration`, in nanoseconds
(`µs` is U+00B5, `μs` is U+03BC). -/
def unitMap : String → Option Nat
  | "ns" => some 1
  | "us" => some 1000
  | "µs" => some 1000
  | "μs" => some 1000
  | "ms" => some 1000000
  | "s" => some 1000000000
  | "m" => some 60000000000
  | "h" => some 3600000000000
  | _ => none

/-- The main loop of `time.ParseDuration`, accumulating nanoseconds in `d`.
Each iteration consumes at least two characters (one mantissa digit and one
unit character), so the fuel `|s| + 1` supplied by `ParseDuration` never
runs out; the fuel-exhausted branch is unreachable.  Go computes the
fractional contribution as `uint64(float64(f) * (float64(unit) / scale))`
(documented in the Go source as nanosecond-accurate); it is the exact
`f * unit / scale` in `Nat` here — no claim depends on fractional
magnitudes. -/
def parseDurLoop (orig : String) : Nat → Nat → List Char → Except GoErr Nat
  | _, d, [] => .ok d
  | 0, _, _ => .error (invalidDuration orig)
  | fuel + 1, d, c :: cs =>
    if ¬ (c = '.' ∨ c.isDigit) then .error (invalidDuration orig)
    else
      match leadingIntGo 0 (c :: cs) with
      | .error _ => .error (invalidDuration orig)
      | .ok (v, s1) =>
        let pre : GoBool := decide (s1.length ≠ (c :: cs).length)
        let (f, scale, s2, post) :=
          match s1 with
          | '.' :: r =>
            let (f, scale, s2) := leadingFractionGo 0 1 false r
            (f, scale, s2, (decide (s2.length ≠ r.length) : GoBool))
          | _ => (0, 1, s1, false)
        if pre = false ∧ post = false then .error (invalidDuration orig)
        else
          let i := unitLen s2
          if i = 0 then
            .error (.errorString ("time: missing unit in duration " ++ quoteGo orig))
          else
            let u := { data := s2.take i : GoStr }
            match unitMap u with
            | none =>
              .error (.errorString
                ("time: unknown unit " ++ quoteGo u ++ " in duration " ++ quoteGo orig))
            | some unit =>
              if twoPow63 / unit < v then .error (invalidDuration orig)
              else
                let v1 := v * unit
                let v2 := if 0 < f then v1 + f * unit / scale else v1
                if 0 < f ∧ twoPow63 < v2 then .error (invalidDuration orig)
                else
                  let d' := d + v2
                  if twoPow63 < d' then .error (invalidDuration orig)
                  else parseDurLoop orig fuel d' (s2.drop i)

/-- Model of Go `time.ParseDuration`: optional sign, special case `"0"`,
then the pair-consuming loop; result is `int64` nanoseconds. -/
def ParseDuration (s : String) : Except GoErr GoDuration :=
  let orig := s
  let (neg, cs1) :=
    match s.data with
    | '-' :: r => (true, r)
    | '+' :: r => (false, r)
    | _ => (false, s.data)
  if cs1 = ['0'] then .ok 0
  else if cs1 = [] then .error (invalidDuration orig)
  else
    match parseDurLoop orig (cs1.length + 1) 0 cs1 with
    | .error e => .error e
    | .ok d =>
      if neg then .ok (-(d : Int))
      else if twoPow63 - 1 < d then .error (invalidDuration orig)
      else .ok (d : Int)

namespace EnvGo

/-- Embeds `String` from `src/env.go`: the value bound in the environment if
non-empty, else `def`.  It performs no logging, so it returns the bare
string. -/
def String (env : Env) (key d : GoStr) : GoStr :=
  let s := getenv env key
  if s ≠ "" then s else d

/-- Embeds `Bool` from `src/env.go` (the `strconv.ParseBool` variant),
returning the result together with the hook invocations of the call. -/
def Bool (env : Env) (key : GoStr) (d : GoBool) : GoBool × List HookCall :=
  let s := String env key ""
  if s ≠ "" then
    match ParseBool s with
    | .ok b => (b, [])
    | .error e => (d, [(key, e)])
  else (d, [])

/-- Embeds `Int` from `src/env.go` (`strconv.Atoi`). -/
def Int (env : Env) (key : GoStr) (d : GoInt) : GoInt × List HookCall :=
  let s := String env key ""
  if s ≠ "" then
    match Atoi s with
    | .ok n => (n, [])
    | .error e => (d, [(key, e)])
  else (d, [])

/-- Embeds `Float64` from `src/env.go` (`strconv.ParseFloat(s, 64)`). -/
def Float64 (env : Env) (key : GoStr) (d : GoFloat) : GoFloat × List HookCall :=
  let s := String env key ""
  if s ≠ "" then
    match ParseFloat s with
    | .ok f => (f, [])
    | .error e => (d, [(key, e)])
  else (d, [])

/-- Embeds `Duration` from `src/env.go` (`time.ParseDuration`). -/
def Duration (env : Env) (key : GoStr) (d : GoDuration) : GoDuration × List HookCall :=
  let s := String env key ""
  if s ≠ "" then
    match ParseDuration s with
    | .ok v => (v, [])
    | .error e => (d, [(key, e)])
  else (d, [])

end EnvGo

namespace Part000

/-- Embeds `String` from `src/unnamed/part_000` (textually identical to the
`src/env.go` version). -/
def String (env : Env) (key d : GoStr) : GoStr :=
  let s := getenv env key
  if s ≠ "" then s else d

/-- Embeds `Bool` from `src/unnamed/part_000`: lowercases the raw value and
switches over the six tokens; any other non-empty value is logged as
`unknown bool value: '<s>'` where `s` is the already-lowercased value
(Go's `fmt.Errorf` receives the `switch` scrutinee `s`, not the raw
environment string). -/
def Bool (env : Env) (key : GoStr) (d : GoBool) : GoBool × List HookCall :=
  let s := toLowerAscii (String env key "")
  if s = "true" ∨ s = "t" ∨ s = "1" then (true, [])
  else if s = "false" ∨ s = "f" ∨ s = "0" then (false, [])
  else if s ≠ "" then (d, [(key, .errorString ("unknown bool value: '" ++ s ++ "'"))])
  else (d, [])

/-- Embeds `Int` from `src/unnamed/part_000` (identical to `EnvGo.Int`). -/
def Int (env : Env) (key : GoStr) (d : GoInt) : GoInt × List HookCall :=
  let s := String env key ""
  if s ≠ "" then
    match Atoi s with
    | .ok n => (n, [])
    | .error e => (d, [(key, e)])
  else (d, [])

/-- Embeds `Float64` from `src/unnamed/part_000` (identical to
`EnvGo.Float64`). -/
def Float64 (env : Env) (key : GoStr) (d : GoFloat) : GoFloat × List HookCall :=
  let s := String env key ""
  if s ≠ "" then
    match ParseFloat s with
    | .ok f => (f, [])
    | .error e => (d, [(key, e)])
  else (d, [])

/-- Embeds `Duration` from `src/unnamed/part_000` (identical to
`EnvGo.Duration`). -/
def Duration (env : Env) (key : GoStr) (d : GoDuration) : GoDuration × List HookCall :=
  let s := String env key ""
  if s ≠ "" then
    match ParseDuration s with
    | .ok v => (v, [])
    | .error e => (d, [(key, e)])
  else (d, [])

end Part000

/-- Claim-statement vocabulary: `p` occurs as a contiguous substring of
`s` (used to formalise an error message "naming" a value). -/
def substrOf (p s : String) : Bool :=
  s.data.tails.any (fun t => p.data.isPrefixOf t)

/-- Claim-statement vocabulary: the string consists of ASCII characters
only.  On such strings `toLowerAscii` agrees exactly with Go's
`strings.ToLower`, character by character. -/
def asciiOnly (s : String) : Bool :=
  s.data.all (fun c => c.toNat ≤ 127)

/-- Claim-statement vocabulary: a syntactically well-formed base-10 signed
integer literal — optional sign then one or more ASCII digits (the accept
grammar of `strconv.Atoi` before its range check). -/
def intLitShape (s : String) : Bool :=
  match s.data with
  | [] => false
  | c :: rest =>
    let digits := if c = '-' ∨ c = '+' then rest else c :: rest
    ¬ digits.isEmpty ∧ digits.all Char.isDigit

/-- Claim-statement vocabulary: the mathematical value of a well-formed
base-10 signed integer literal. -/
def intLitVal (s : String) : Int :=
  match s.data with
  | [] => 0
  | c :: rest =>
    let digits := if c = '-' ∨ c = '+' then rest else c :: rest
    let n : Int := (digits.foldl (fun a d => a * 10 + (d.toNat - 48)) 0 : Nat)
    if c = '-' then -n else n

/-! ### Helper lemmas -/

theorem getenv_of_some {env : Env} {key s : String} (h : env key = some s) :
    getenv env key = s := by
  simp [getenv, h]

theorem getenv_of_unsetOrEmpty {env : Env} {key : String}
    (h : env key = none ∨ env key = some "") : getenv env key = "" := by
  rcases h with h | h <;> simp [getenv, h]

theorem envGo_string_eq (env : Env) (key d : String) :
    EnvGo.String env key d = if getenv env key ≠ "" then getenv env key else d := by
  simp only [EnvGo.String]

theorem part000_string_eq (env : Env) (key d : String) :
    Part000.String env key d = if getenv env key ≠ "" then getenv env key else d := by
  simp only [Part000.String]

theorem envGo_string_empty (env : Env) (key : String) :
    EnvGo.String env key "" = getenv env key := by
  rw [envGo_string_eq]
  by_cases h : getenv env key = "" <;> simp [h]

theorem part000_string_empty (env : Env) (key : String) :
    Part000.String env key "" = getenv env key := by
  rw [part000_string_eq]
  by_cases h : getenv env key = "" <;> simp [h]

theorem envGo_bool_eq (env : Env) (key : String) (d : Bool) :
    EnvGo.Bool env key d =
      if getenv env key ≠ "" then
        match ParseBool (getenv env key) with
        | .ok b => (b, [])
        | .error e => (d, [(key, e)])
      else (d, []) := by
  simp only [EnvGo.Bool, envGo_string_empty]

theorem envGo_int_eq (env : Env) (key : String) (d : Int) :
    EnvGo.Int env key d =
      if getenv env key ≠ "" then
        match Atoi (getenv env key) with
        | .ok n => (n, [])
        | .error e => (d, [(key, e)])
      else (d, []) := by
  simp only [EnvGo.Int, envGo_string_empty]

theorem envGo_float64_eq (env : Env) (key : String) (d : GoFloat) :
    EnvGo.Float64 env key d =
      if getenv env key ≠ "" then
        match ParseFloat (getenv env key) with
        | .ok f => (f, [])
        | .error e => (d, [(key, e)])
      else (d, []) := by
  simp only [EnvGo.Float64, envGo_string_empty]

theorem envGo_duration_eq (env : Env) (key : String) (d : GoDuration) :
    EnvGo.Duration env key d =
      if getenv env key ≠ "" then
        match ParseDuration (getenv env key) with
        | .ok v => (v, [])
        | .error e => (d, [(key, e)])
      else (d, []) := by
  simp only [EnvGo.Duration, envGo_string_empty]

theorem part000_bool_eq (env : Env) (key : String) (d : Bool) :
    Part000.Bool env key d =
      (let s := toLowerAscii (getenv env key)
       if s = "true" ∨ s = "t" ∨ s = "1" then (true, [])
       else if s = "false" ∨ s = "f" ∨ s = "0" then (false, [])
       else if s ≠ "" then (d, [(key, .errorString ("unknown bool value: '" ++ s ++ "'"))])
       else (d, [])) := by
  simp only [Part000.Bool, part000_string_empty]

theorem part000_int_eq (env : Env) (key : String) (d : Int) :
    Part000.Int env key d =
      if getenv env key ≠ "" then
        match Atoi (getenv env key) with
        | .ok n => (n, [])
        | .error e => (d, [(key, e)])
      else (d, []) := by
  simp only [Part000.Int, part000_string_empty]

theorem part000_float64_eq (env : Env) (key : String) (d : GoFloat) :
    Part000.Float64 env key d =
      if getenv env key ≠ "" then
        match ParseFloat (getenv env key) with
        | .ok f => (f, [])
        | .error e => (d, [(key, e)])
      else (d, []) := by
  simp only [Part000.Float64, part000_string_empty]

theorem part000_duration_eq (env : Env) (key : String) (d : GoDuration) :
    Part000.Duration env key d =
      if getenv env key ≠ "" then
        match ParseDuration (getenv env key) with
        | .ok v => (v, [])
        | .error e => (d, [(key, e)])
      else (d, []) := by
  simp only [Part000.Duration, part000_string_empty]

/-! ### Claims -/

/-- C1: for every accessor (String, Bool, Int, Float64, Duration) of both
source variants, every key and every default: if the environment variable
is unset, or set to the empty string, the accessor returns exactly the
supplied default and the error hook is never invoked (empty hook trace);
the hypothesis covers both cases at once, so the empty-string case is
behaviourally identical to the unset case. -/
theorem claim_c1 (env : Env) (key : String)
    (h : env key = none ∨ env key = some "") :
    (∀ d, EnvGo.String env key d = d) ∧
    (∀ d, Part000.String env key d = d) ∧
    (∀ d, EnvGo.Bool env key d = (d, [])) ∧
    (∀ d, Part000.Bool env key d = (d, [])) ∧
    (∀ d, EnvGo.Int env key d = (d, [])) ∧
    (∀ d, Part000.Int env key d = (d, [])) ∧
    (∀ d, EnvGo.Float64 env key d = (d, [])) ∧
    (∀ d, Part000.Float64 env key d = (d, [])) ∧
    (∀ d, EnvGo.Duration env key d = (d, [])) ∧
    (∀ d, Part000.Duration env key d = (d, [])) := by
  have hg := getenv_of_unsetOrEmpty h
  refine ⟨?_, ?_, ?_, ?_, ?_, ?_, ?_, ?_, ?_, ?_⟩ <;> intro d <;>
    simp [envGo_string_eq, part000_string_eq, envGo_bool_eq, part000_bool_eq,
      envGo_int_eq, part000_int_eq, envGo_float64_eq, part000_float64_eq,
      envGo_duration_eq, part000_duration_eq, hg, toLowerAscii]

/-- Witness for C1 at a concrete unset variable and a concrete empty-valued
variable. -/
theorem claim_c1_witness :
    EnvGo.Int (fun _ => none) "PORT" 8080 = (8080, []) ∧
    Part000.Bool (fun _ => some "") "DEBUG" true = (true, []) := by
  constructor
  · exact (claim_c1 (fun _ => none) "PORT" (Or.inl rfl)).2.2.2.2.1 8080
  · exact (claim_c1 (fun _ => some "") "DEBUG" (Or.inr rfl)).2.2.2.1 true

/-- C2: `String(key, def)` (in both source variants) returns the string
currently bound to `key` in the process environment whenever that string is
non-empty, and returns `def` otherwise; the raw value is returned exactly
as bound — unmodified, so in particular with no trimming or case change. -/
theorem claim_c2 (env : Env) (key d s : String) (h : env key = some s) :
    (s ≠ "" → EnvGo.String env key d = s ∧ Part000.String env key d = s) ∧
    (s = "" → EnvGo.String env key d = d ∧ Part000.String env key d = d) := by
  have hg := getenv_of_some h
  constructor
  · intro hs
    rw [envGo_string_eq, part000_string_eq, hg]
    simp [hs]
  · intro hs
    rw [envGo_string_eq, part000_string_eq, hg]
    simp [hs]

/-- Witness for C2: a value with surrounding whitespace and mixed case comes
back verbatim. -/
theorem claim_c2_witness :
    EnvGo.String (fun _ => some "  MixedCase  ") "HOME" "fallback" = "  MixedCase  " ∧
    Part000.String (fun _ => some "  MixedCase  ") "HOME" "fallback" = "  MixedCase  " :=
  (claim_c2 (fun _ => some "  MixedCase  ") "HOME" "fallback" "  MixedCase  " rfl).1
    (by decide)

/-- C3: for every key and default, if the raw environment value matches one
of the six tokens `true, t, 1, false, f, 0` under case-insensitive
comparison, then `Bool` (the six-token variant of `src/unnamed/part_000`,
which is the spec's canonical GetBool) returns the corresponding boolean
and the error hook is not invoked. -/
theorem claim_c3 (env : Env) (key : String) (d : Bool) (s : String)
    (h : env key = some s) :
    (toLowerAscii s = "true" ∨ toLowerAscii s = "t" ∨ toLowerAscii s = "1" →
      Part000.Bool env key d = (true, [])) ∧
    (toLowerAscii s = "false" ∨ toLowerAscii s = "f" ∨ toLowerAscii s = "0" →
      Part000.Bool env key d = (false, [])) := by
  have hg := getenv_of_some h
  constructor
  · rintro (ht | ht | ht) <;> rw [part000_bool_eq, hg] <;> simp [ht]
  · rintro (ht | ht | ht) <;> rw [part000_bool_eq, hg] <;> simp [ht]

/-- Witness for C3: the mixed-case spelling `tRuE` yields `true` and the
single letter `F` yields `false`, with no hook invocation. -/
theorem claim_c3_witness :
    Part000.Bool (fun _ => some "tRuE") "FLAG" false = (true, []) ∧
    Part000.Bool (fun _ => some "F") "FLAG" true = (false, []) := by
  constructor
  · exact (claim_c3 (fun _ => some "tRuE") "FLAG" false "tRuE" rfl).1 (Or.inl (by decide))
  · exact (claim_c3 (fun _ => some "F") "FLAG" true "F" rfl).2 (Or.inr (Or.inl (by decide)))

/-- Non-empty strings lowercase to non-empty strings. -/
theorem toLowerAscii_ne_empty {s : String} (h : s ≠ "") : toLowerAscii s ≠ "" := by
  intro hc
  apply h
  have hd : s.data.map Char.toLower = [] := congrArg String.data hc
  have hnil : s.data = [] := List.map_eq_nil_iff.mp hd
  cases s
  simp_all

/-- C4 counterexample: for the raw value `"YES"` the hook receives the
message `unknown bool value: 'yes'`, which does not contain the offending
raw value `"YES"` — the code names the lowercased scrutinee of its
`switch`, not the raw environment string, so the claim's "error that names
the offending value" fails as stated. -/
theorem claim_c4_counterexample :
    Part000.Bool (fun _ => some "YES") "FLAG" true =
      (true, [("FLAG", GoErr.errorString "unknown bool value: 'yes'")]) ∧
    substrOf "YES" "unknown bool value: 'yes'" = false := by
  constructor
  · decide
  · decide

/-- C4 (amended): for every key whose raw environment value is non-empty
and does not match any of the six recognized boolean tokens
(case-insensitively), `Part000.Bool` returns the supplied default and the
error hook is invoked exactly once during that call, receiving that key
together with an error of the form `unknown bool value: '<m>'` — default
result, single hook invocation and message shape hold for every such
value — where the program computes `m` as `strings.ToLower` of the
offending value; for ASCII raw values (such as the spec's example `"yes"`,
or `"YES"`), where `toLowerAscii` provably coincides with Go's Unicode
lowercasing, `m` is asserted to be exactly the lowercased offending
value.  The message's exact text for non-ASCII values is outside the
embedding's exact range (see `toLowerAscii`) and is not asserted. -/
theorem claim_c4 (env : Env) (key : String) (d : Bool) (s : String)
    (h : env key = some s) (hne : s ≠ "")
    (htok : ¬ (toLowerAscii s = "true" ∨ toLowerAscii s = "t" ∨ toLowerAscii s = "1" ∨
               toLowerAscii s = "false" ∨ toLowerAscii s = "f" ∨ toLowerAscii s = "0")) :
    ∃ m, Part000.Bool env key d =
        (d, [(key, .errorString ("unknown bool value: '" ++ m ++ "'"))]) ∧
      (asciiOnly s = true → m = toLowerAscii s) := by
  refine ⟨toLowerAscii s, ?_, fun _ => rfl⟩
  have hg := getenv_of_some h
  have hne' := toLowerAscii_ne_empty hne
  push_neg at htok
  obtain ⟨h1, h2, h3, h4, h5, h6⟩ := htok
  rw [part000_bool_eq, hg]
  simp [h1, h2, h3, h4, h5, h6, hne']

/-- Witness for C4 (amended) at the spec's own ASCII example `"yes"`. -/
theorem claim_c4_witness :
    Part000.Bool (fun _ => some "yes") "FLAG" false =
      (false, [("FLAG", GoErr.errorString ("unknown bool value: '" ++ toLowerAscii "yes" ++ "'"))]) := by
  obtain ⟨m, hm, hascii⟩ :=
    claim_c4 (fun _ => some "yes") "FLAG" false "yes" rfl (by decide) (by decide)
  rwa [hascii (by decide)] at hm

/-- C5: for every key and default (both variants), if the raw environment
value is non-empty and `strconv.Atoi` parses it, `Int` returns the parsed
integer with no hook invocation; if the non-empty value fails to parse,
`Int` invokes the hook exactly once with the key and the underlying parse
error, and returns the default. -/
theorem claim_c5 (env : Env) (key s : String) (d : Int)
    (h : env key = some s) (hne : s ≠ "") :
    (∀ n, Atoi s = .ok n →
      EnvGo.Int env key d = (n, []) ∧ Part000.Int env key d = (n, [])) ∧
    (∀ e, Atoi s = .error e →
      EnvGo.Int env key d = (d, [(key, e)]) ∧ Part000.Int env key d = (d, [(key, e)])) := by
  have hg := getenv_of_some h
  constructor
  · intro n hn
    rw [envGo_int_eq, part000_int_eq, hg]
    simp [hne, hn]
  · intro e he
    rw [envGo_int_eq, part000_int_eq, hg]
    simp [hne, he]

/-- Witness for C5 at the spec's examples: `"42"` ↦ 42 and `"-7"` ↦ -7 with
no hook call; `"3.5"` ↦ the default with exactly one hook call carrying the
syntax `NumError`. -/
theorem claim_c5_witness :
    EnvGo.Int (fun _ => some "42") "N" 0 = (42, []) ∧
    EnvGo.Int (fun _ => some "-7") "N" 0 = (-7, []) ∧
    EnvGo.Int (fun _ => some "3.5") "N" 9 =
      (9, [("N", GoErr.numError "Atoi" "3.5" NumErrKind.syn)]) := by
  refine ⟨?_, ?_, ?_⟩
  · exact ((claim_c5 (fun _ => some "42") "N" "42" 0 rfl (by decide)).1 42 (by decide)).1
  · exact ((claim_c5 (fun _ => some "-7") "N" "-7" 0 rfl (by decide)).1 (-7) (by decide)).1
  · exact ((claim_c5 (fun _ => some "3.5") "N" "3.5" 9 rfl (by decide)).2
      (GoErr.numError "Atoi" "3.5" NumErrKind.syn) (by decide)).1

/-- C6: for every key and default (both variants), if the raw environment
value is non-empty and `time.ParseDuration` parses it, `Duration` returns
the parsed duration (in nanoseconds) with no hook invocation; if the
non-empty value fails to parse, `Duration` invokes the hook exactly once
with the key and the parse error, and returns the default. -/
theorem claim_c6 (env : Env) (key s : String) (d : GoDuration)
    (h : env key = some s) (hne : s ≠ "") :
    (∀ v, ParseDuration s = .ok v →
      EnvGo.Duration env key d = (v, []) ∧ Part000.Duration env key d = (v, [])) ∧
    (∀ e, ParseDuration s = .error e →
      EnvGo.Duration env key d = (d, [(key, e)]) ∧ Part000.Duration env key d = (d, [(key, e)])) := by
  have hg := getenv_of_some h
  constructor
  · intro v hv
    rw [envGo_duration_eq, part000_duration_eq, hg]
    simp [hne, hv]
  · intro e he
    rw [envGo_duration_eq, part000_duration_eq, hg]
    simp [hne, he]

/-- Witness for C6 at the spec's examples: `"1h30m"` ↦ 90 minutes,
`"500ms"` ↦ 500 milliseconds (no hook call), and `"notaduration"` ↦ the
default with exactly one hook call carrying the parse error. -/
theorem claim_c6_witness :
    EnvGo.Duration (fun _ => some "1h30m") "T" 0 = (90 * 60 * 1000000000, []) ∧
    EnvGo.Duration (fun _ => some "500ms") "T" 0 = (500 * 1000000, []) ∧
    EnvGo.Duration (fun _ => some "notaduration") "T" 7 =
      (7, [("T", GoErr.errorString "time: invalid duration \"notaduration\"")]) := by
  refine ⟨?_, ?_, ?_⟩
  · exact ((claim_c6 (fun _ => some "1h30m") "T" "1h30m" 0 rfl (by decide)).1
      (90 * 60 * 1000000000) (by decide)).1
  · exact ((claim_c6 (fun _ => some "500ms") "T" "500ms" 0 rfl (by decide)).1
      (500 * 1000000) (by decide)).1
  · exact ((claim_c6 (fun _ => some "notaduration") "T" "notaduration" 7 rfl (by decide)).2
      (GoErr.errorString "time: invalid duration \"notaduration\"") (by decide)).1

/-- `Part000.Bool` always returns the default or one of the two parsed
booleans (helper for the totality and purity claims). -/
theorem part000_bool_shape (env : Env) (key : GoStr) (d : GoBool) :
    (Part000.Bool env key d).1 = d ∨
    Part000.Bool env key d = (true, []) ∨ Part000.Bool env key d = (false, []) := by
  rw [part000_bool_eq]
  by_cases h1 : toLowerAscii (getenv env key) = "true" ∨
      toLowerAscii (getenv env key) = "t" ∨ toLowerAscii (getenv env key) = "1"
  · right; left; simp [h1]
  · by_cases h2 : toLowerAscii (getenv env key) = "false" ∨
        toLowerAscii (getenv env key) = "f" ∨ toLowerAscii (getenv env key) = "0"
    · right; right; simp [h1, h2]
    · left
      simp only [h1, h2, if_false]
      split <;> rfl

/-- C7: every accessor of both variants is (by construction of the
embedding) a total function into its declared result type; moreover its
value component is always either the supplied default or the value
successfully parsed from the raw string — no error is ever propagated to
the caller, failures appearing only in the hook trace. -/
theorem claim_c7 (env : Env) (key ds : GoStr) (db : GoBool) (di : GoInt)
    (df : GoFloat) (dd : GoDuration) :
    (EnvGo.String env key ds = ds ∨ EnvGo.String env key ds = getenv env key) ∧
    (Part000.String env key ds = ds ∨ Part000.String env key ds = getenv env key) ∧
    ((EnvGo.Bool env key db).1 = db ∨
      ∃ b, ParseBool (getenv env key) = .ok b ∧ EnvGo.Bool env key db = (b, [])) ∧
    ((Part000.Bool env key db).1 = db ∨
      Part000.Bool env key db = (true, []) ∨ Part000.Bool env key db = (false, [])) ∧
    ((EnvGo.Int env key di).1 = di ∨
      ∃ n, Atoi (getenv env key) = .ok n ∧ EnvGo.Int env key di = (n, [])) ∧
    ((Part000.Int env key di).1 = di ∨
      ∃ n, Atoi (getenv env key) = .ok n ∧ Part000.Int env key di = (n, [])) ∧
    ((EnvGo.Float64 env key df).1 = df ∨
      ∃ q, ParseFloat (getenv env key) = .ok q ∧ EnvGo.Float64 env key df = (q, [])) ∧
    ((Part000.Float64 env key df).1 = df ∨
      ∃ q, ParseFloat (getenv env key) = .ok q ∧ Part000.Float64 env key df = (q, [])) ∧
    ((EnvGo.Duration env key dd).1 = dd ∨
      ∃ v, ParseDuration (getenv env key) = .ok v ∧ EnvGo.Duration env key dd = (v, [])) ∧
    ((Part000.Duration env key dd).1 = dd ∨
      ∃ v, ParseDuration (getenv env key) = .ok v ∧ Part000.Duration env key dd = (v, [])) := by
  refine ⟨?_, ?_, ?_, part000_bool_shape env key db, ?_, ?_, ?_, ?_, ?_, ?_⟩
  · rw [envGo_string_eq]; by_cases hg : getenv env key = "" <;> simp [hg]
  · rw [part000_string_eq]; by_cases hg : getenv env key = "" <;> simp [hg]
  · rw [envGo_bool_eq]
    by_cases hg : getenv env key = ""
    · left; simp [hg]
    · cases hp : ParseBool (getenv env key) with
      | ok b => right; exact ⟨b, rfl, by simp [hg]⟩
      | error e => left; simp [hg]
  · rw [envGo_int_eq]
    by_cases hg : getenv env key = ""
    · left; simp [hg]
    · cases hp : Atoi (getenv env key) with
      | ok n => right; exact ⟨n, rfl, by simp [hg]⟩
      | error e => left; simp [hg]
  · rw [part000_int_eq]
    by_cases hg : getenv env key = ""
    · left; simp [hg]
    · cases hp : Atoi (getenv env key) with
      | ok n => right; exact ⟨n, rfl, by simp [hg]⟩
      | error e => left; simp [hg]
  · rw [envGo_float64_eq]
    by_cases hg : getenv env key = ""
    · left; simp [hg]
    · cases hp : ParseFloat (getenv env key) with
      | ok q => right; exact ⟨q, rfl, by simp [hg]⟩
      | error e => left; simp [hg]
  · rw [part000_float64_eq]
    by_cases hg : getenv env key = ""
    · left; simp [hg]
    · cases hp : ParseFloat (getenv env key) with
      | ok q => right; exact ⟨q, rfl, by simp [hg]⟩
      | error e => left; simp [hg]
  · rw [envGo_duration_eq]
    by_cases hg : getenv env key = ""
    · left; simp [hg]
    · cases hp : ParseDuration (getenv env key) with
      | ok v => right; exact ⟨v, rfl, by simp [hg]⟩
      | error e => left; simp [hg]
  · rw [part000_duration_eq]
    by_cases hg : getenv env key = ""
    · left; simp [hg]
    · cases hp : ParseDuration (getenv env key) with
      | ok v => right; exact ⟨v, rfl, by simp [hg]⟩
      | error e => left; simp [hg]

/-- C8: each accessor of both variants is pure — its result (value and hook
trace alike) depends only on the environment's value at the queried key and
on the arguments, never on previous calls (the embedding threads no state);
hence two successive calls with the same arguments against an unchanged
environment return equal results.  Moreover every call invokes the hook at
most once (trace length 0 or 1). -/
theorem claim_c8 (env1 env2 : Env) (key : GoStr) (h : env1 key = env2 key)
    (ds : GoStr) (db : GoBool) (di : GoInt) (df : GoFloat) (dd : GoDuration) :
    (EnvGo.String env1 key ds = EnvGo.String env2 key ds) ∧
    (Part000.String env1 key ds = Part000.String env2 key ds) ∧
    (EnvGo.Bool env1 key db = EnvGo.Bool env2 key db) ∧
    (Part000.Bool env1 key db = Part000.Bool env2 key db) ∧
    (EnvGo.Int env1 key di = EnvGo.Int env2 key di) ∧
    (Part000.Int env1 key di = Part000.Int env2 key di) ∧
    (EnvGo.Float64 env1 key df = EnvGo.Float64 env2 key df) ∧
    (Part000.Float64 env1 key df = Part000.Float64 env2 key df) ∧
    (EnvGo.Duration env1 key dd = EnvGo.Duration env2 key dd) ∧
    (Part000.Duration env1 key dd = Part000.Duration env2 key dd) ∧
    (EnvGo.Bool env1 key db).2.length ≤ 1 ∧
    (Part000.Bool env1 key db).2.length ≤ 1 ∧
    (EnvGo.Int env1 key di).2.length ≤ 1 ∧
    (Part000.Int env1 key di).2.length ≤ 1 ∧
    (EnvGo.Float64 env1 key df).2.length ≤ 1 ∧
    (Part000.Float64 env1 key df).2.length ≤ 1 ∧
    (EnvGo.Duration env1 key dd).2.length ≤ 1 ∧
    (Part000.Duration env1 key dd).2.length ≤ 1 := by
  have hg : getenv env1 key = getenv env2 key := by simp [getenv, h]
  refine ⟨?_, ?_, ?_, ?_, ?_, ?_, ?_, ?_, ?_, ?_, ?_, ?_, ?_, ?_, ?_, ?_, ?_, ?_⟩
  · rw [envGo_string_eq, envGo_string_eq, hg]
  · rw [part000_string_eq, part000_string_eq, hg]
  · rw [envGo_bool_eq, envGo_bool_eq, hg]
  · rw [part000_bool_eq, part000_bool_eq, hg]
  · rw [envGo_int_eq, envGo_int_eq, hg]
  · rw [part000_int_eq, part000_int_eq, hg]
  · rw [envGo_float64_eq, envGo_float64_eq, hg]
  · rw [part000_float64_eq, part000_float64_eq, hg]
  · rw [envGo_duration_eq, envGo_duration_eq, hg]
  · rw [part000_duration_eq, part000_duration_eq, hg]
  · rw [envGo_bool_eq]
    by_cases hg1 : getenv env1 key = ""
    · simp [hg1]
    · cases hp : ParseBool (getenv env1 key) <;> simp [hg1]
  · rw [part000_bool_eq]
    by_cases h1 : toLowerAscii (getenv env1 key) = "true" ∨
        toLowerAscii (getenv env1 key) = "t" ∨ toLowerAscii (getenv env1 key) = "1"
    · simp [h1]
    · by_cases h2 : toLowerAscii (getenv env1 key) = "false" ∨
          toLowerAscii (getenv env1 key) = "f" ∨ toLowerAscii (getenv env1 key) = "0"
      · simp [h1, h2]
      · by_cases h3 : toLowerAscii (getenv env1 key) = ""
        · simp [h1, h2, h3]
        · simp [h1, h2, h3]
  · rw [envGo_int_eq]
    by_cases hg1 : getenv env1 key = ""
    · simp [hg1]
    · cases hp : Atoi (getenv env1 key) <;> simp [hg1]
  · rw [part000_int_eq]
    by_cases hg1 : getenv env1 key = ""
    · simp [hg1]
    · cases hp : Atoi (getenv env1 key) <;> simp [hg1]
  · rw [envGo_float64_eq]
    by_cases hg1 : getenv env1 key = ""
    · simp [hg1]
    · cases hp : ParseFloat (getenv env1 key) <;> simp [hg1]
  · rw [part000_float64_eq]
    by_cases hg1 : getenv env1 key = ""
    · simp [hg1]
    · cases hp : ParseFloat (getenv env1 key) <;> simp [hg1]
  · rw [envGo_duration_eq]
    by_cases hg1 : getenv env1 key = ""
    · simp [hg1]
    · cases hp : ParseDuration (getenv env1 key) <;> simp [hg1]
  · rw [part000_duration_eq]
    by_cases hg1 : getenv env1 key = ""
    · simp [hg1]
    · cases hp : ParseDuration (getenv env1 key) <;> simp [hg1]

/-- Witness for C8: two environments that agree at the queried key (one of
them unset everywhere else) give the same `Int` result, and a malformed
boolean invokes the hook at most once. -/
theorem claim_c8_witness :
    EnvGo.Int (fun _ => some "42") "N" 5 =
      EnvGo.Int (fun k => if k = "N" then some "42" else none) "N" 5 ∧
    (Part000.Bool (fun _ => some "42") "N" true).2.length ≤ 1 := by
  have hc := claim_c8 (fun _ => some "42") (fun k => if k = "N" then some "42" else none)
    "N" (by decide) "s" true 5 GoFloat.nan 3
  exact ⟨hc.2.2.2.2.1, hc.2.2.2.2.2.2.2.2.2.2.2.1⟩

/-- C9 counterexample: the claim's "in particular" clause fails — the two
`Bool` variants do NOT disagree on `"1"` and `"0"`: `strconv.ParseBool`
accepts both (they are among its twelve spellings) and the six-token switch
accepts both, with identical results and no hook call. -/
theorem claim_c9_counterexample :
    EnvGo.Bool (fun _ => some "1") "B" false = (true, []) ∧
    Part000.Bool (fun _ => some "1") "B" false = (true, []) ∧
    EnvGo.Bool (fun _ => some "0") "B" true = (false, []) ∧
    Part000.Bool (fun _ => some "0") "B" true = (false, []) := by
  refine ⟨?_, ?_, ?_, ?_⟩ <;> decide

/-- C9 (amended): the two historical `Bool` variants are not extensionally
equal — they disagree on which non-empty raw values are valid tokens (the
mixed-case spelling `"tRuE"` is rejected by the `strconv.ParseBool` variant
and accepted by the six-token switch) — but they agree on the numeric-like
strings `"1"` and `"0"`, which both variants accept, for every environment
binding the queried key to them. -/
theorem claim_c9 :
    (EnvGo.Bool (fun _ => some "tRuE") "FLAG" false =
        (false, [("FLAG", GoErr.numError "ParseBool" "tRuE" NumErrKind.syn)]) ∧
      Part000.Bool (fun _ => some "tRuE") "FLAG" false = (true, [])) ∧
    (∀ env key d, getenv env key = "1" →
      EnvGo.Bool env key d = (true, []) ∧ Part000.Bool env key d = (true, [])) ∧
    (∀ env key d, getenv env key = "0" →
      EnvGo.Bool env key d = (false, []) ∧ Part000.Bool env key d = (false, [])) := by
  refine ⟨⟨by decide, by decide⟩, ?_, ?_⟩
  · intro env key d hg
    constructor
    · rw [envGo_bool_eq, hg]; simp [ParseBool]
    · rw [part000_bool_eq, hg]; simp [toLowerAscii]
  · intro env key d hg
    constructor
    · rw [envGo_bool_eq, hg]; simp [ParseBool]
    · rw [part000_bool_eq, hg]; simp [toLowerAscii]

/-- Witness for C9 (amended): its universally quantified parts applied at a
concrete environment. -/
theorem claim_c9_witness :
    EnvGo.Bool (fun _ => some "1") "K" false = (true, []) ∧
    Part000.Bool (fun _ => some "0") "K" true = (false, []) :=
  ⟨(claim_c9.2.1 (fun _ => some "1") "K" false (by decide)).1,
   (claim_c9.2.2 (fun _ => some "0") "K" true (by decide)).2⟩


theorem Atoi_of_shape (s : String) (hshape : intLitShape s = true) :
    Atoi s = if intLitVal s < -(twoPow63 : Int) ∨ (twoPow63 : Int) - 1 < intLitVal s
             then .error (.numError "Atoi" s .range) else .ok (intLitVal s) := by
  unfold Atoi intLitVal
  unfold intLitShape at hshape
  rcases hd : s.data with _ | ⟨c, rest⟩
  · rw [hd] at hshape; simp at hshape
  · rw [hd] at hshape
    by_cases hcm : c = '-'
    · subst hcm
      simp at hshape
      obtain ⟨h1, h2⟩ := hshape
      simp [h1, h2]
      intro x hx hfx
      simp [h2 x hx] at hfx
    · by_cases hcp : c = '+'
      · subst hcp
        simp at hshape
        obtain ⟨h1, h2⟩ := hshape
        simp [h1, h2, hcm]
        intro x hx hfx
        simp [h2 x hx] at hfx
      · have hor : ¬ (c = '-' ∨ c = '+') := by
          rintro (hc | hc) <;> [exact hcm hc; exact hcp hc]
        simp only [if_neg hor] at hshape
        simp at hshape
        obtain ⟨h1, h2⟩ := hshape
        simp [h1, h2, hcm, hcp, hor]
        intro x hx hfx
        simp [h2 x hx] at hfx

/-- C10: for every key whose raw value is a syntactically well-formed
base-10 signed integer literal whose value lies outside the 64-bit machine
`int` range, `Int` (both variants) treats the value as malformed: `Atoi`
yields a range `NumError`, the hook is invoked exactly once with the key
and that range error, and the supplied default is returned — never a
wrapped, saturated, or truncated integer. -/
theorem claim_c10 (env : Env) (key s : String) (d : Int)
    (h : env key = some s)
    (hshape : intLitShape s = true)
    (hrange : intLitVal s < -(twoPow63 : Int) ∨ (twoPow63 : Int) - 1 < intLitVal s) :
    Atoi s = .error (.numError "Atoi" s .range) ∧
    EnvGo.Int env key d = (d, [(key, .numError "Atoi" s .range)]) ∧
    Part000.Int env key d = (d, [(key, .numError "Atoi" s .range)]) := by
  have hg := getenv_of_some h
  have hne : s ≠ "" := by
    intro hc
    subst hc
    simp [intLitShape] at hshape
  have hAtoi : Atoi s = .error (.numError "Atoi" s .range) := by
    rw [Atoi_of_shape s hshape, if_pos hrange]
  refine ⟨hAtoi, ?_, ?_⟩
  · rw [envGo_int_eq, hg]; simp [hne, hAtoi]
  · rw [part000_int_eq, hg]; simp [hne, hAtoi]

/-- Witness for C10 at `2^63` (one past the largest `int64`), the claim's
example of an out-of-range literal on a 64-bit platform. -/
theorem claim_c10_witness :
    EnvGo.Int (fun _ => some "9223372036854775808") "N" 1 =
      (1, [("N", GoErr.numError "Atoi" "9223372036854775808" NumErrKind.range)]) :=
  (claim_c10 (fun _ => some "9223372036854775808") "N" "9223372036854775808" 1 rfl
    (by decide) (by decide)).2.1
